import Mathlib

/-!
# Shallow embedding of the sf-ui-common widget systems

This file embeds the widget data model (src/components.rs,
src/advanced_components/scroll_area.rs) and the per-frame interaction
handlers (src/systems.rs, src/lib.rs) of the sf-ui-common crate, and
proves properties of the handlers.

Modelling conventions:
* `f32` is modelled by `ℚ` (the handlers only add, multiply, compare and
  clamp; no transcendental operations occur).
* Bevy `Entity` is modelled by `ℕ`.
* An ECS query result is passed explicitly: per-widget components are
  function arguments, component stores such as the `Text` components of
  child entities are functions `Entity → Option Text`, and mutation is
  modelled by returning the updated values.
* A Rust panic (out-of-bounds slice index) is modelled by the handler
  returning `none`.
* `Style` and `TextStyle` are reduced to the fields the handlers touch
  (`width`, respectively the section colour).
-/

namespace SfUi

/-- Bevy entity id. -/
abbrev Entity := ℕ

/-- 2-d vector (glam `Vec2`), over `ℚ`. -/
structure Vec2 where
  x : ℚ
  y : ℚ
deriving DecidableEq

/-- glam `Vec2::ZERO`. -/
def Vec2.ZERO : Vec2 := ⟨0, 0⟩

/-- glam `Vec2 + f32` adds the scalar to both components. -/
def Vec2.addScalar (v : Vec2) (s : ℚ) : Vec2 := ⟨v.x + s, v.y + s⟩

/-- glam `Vec2::max`, componentwise. -/
def Vec2.cmax (a b : Vec2) : Vec2 := ⟨max a.x b.x, max a.y b.y⟩

/-- glam `Vec2::min`, componentwise. -/
def Vec2.cmin (a b : Vec2) : Vec2 := ⟨min a.x b.x, min a.y b.y⟩

/-- Bevy `Color` restricted to the srgba representation used by the crate. -/
structure Color where
  red : ℚ
  green : ℚ
  blue : ℚ
  alpha : ℚ
deriving DecidableEq

/-- `Color::srgb`. -/
def Color.srgb (r g b : ℚ) : Color := ⟨r, g, b, 1⟩

/-- `Color::srgba`. -/
def Color.srgba (r g b a : ℚ) : Color := ⟨r, g, b, a⟩

/-- `colors::WHITE` (src/lib.rs). -/
def colors.WHITE : Color := Color.srgb 1 1 1

/-- `colors::BLACK` (src/lib.rs). -/
def colors.BLACK : Color := Color.srgb 0 0 0

/-- `colors::button::NORMAL` (src/lib.rs). -/
def colors.button.NORMAL : Color := Color.srgb 0.15 0.15 0.15

/-- `colors::button::HOVERED` (src/lib.rs). -/
def colors.button.HOVERED : Color := Color.srgb 0.25 0.25 0.35

/-- `colors::button::PRESSED` (src/lib.rs). -/
def colors.button.PRESSED : Color := Color.srgb 0.35 0.35 0.45

/-- `colors::focus::HIGHLIGHT` (src/lib.rs). -/
def colors.focus.HIGHLIGHT : Color := Color.srgba 0.2 0.4 0.8 0.3

/-- `colors::focus::BORDER` (src/lib.rs). -/
def colors.focus.BORDER : Color := Color.srgb 0.3 0.6 1.0

/-- `colors::focus::TEXT` (src/lib.rs). -/
def colors.focus.TEXT : Color := Color.srgb 0.9 0.9 1.0

/-- `colors::text::NORMAL` (src/lib.rs). -/
def colors.text.NORMAL : Color := Color.srgb 0.9 0.9 0.9

/-- Bevy `Interaction` pointer state. -/
inductive Interaction where
  | Pressed
  | Hovered
  | None
deriving DecidableEq

/-- Bevy `Val`, restricted to the constructors the crate uses. -/
inductive Val where
  | Auto
  | Px (v : ℚ)
  | Percent (v : ℚ)
deriving DecidableEq

/-- Bevy `Style`, reduced to the single field the handlers write. -/
structure Style where
  width : Val
deriving DecidableEq

/-- One section of a Bevy `Text`; `style` is collapsed to its colour field,
the only one a handler writes. -/
structure TextSection where
  value : String
  color : Color
deriving DecidableEq

/-- Bevy `Text` component. -/
structure Text where
  sections : List TextSection
deriving DecidableEq

/-- Bevy `Visibility`. -/
inductive Visibility where
  | Inherited
  | Hidden
  | Visible
deriving DecidableEq

/-- `UiButton` (src/components.rs). -/
structure UiButton where
  pressed : Bool
  hovered : Bool
  disabled : Bool
  tooltip : Option String
deriving DecidableEq

/-- `UiCheckbox` (src/components.rs). -/
structure UiCheckbox where
  checked : Bool
  disabled : Bool
  tooltip : Option String
deriving DecidableEq

/-- `UiSlider` (src/components.rs). -/
structure UiSlider where
  value : ℚ
  min : ℚ
  max : ℚ
  format : String
  step : Option ℚ
  disabled : Bool
deriving DecidableEq

/-- `ProgressBar` (src/components.rs). -/
structure ProgressBar where
  value : ℚ
  background_color : Color
  fill_color : Color
  show_text : Bool
deriving DecidableEq

/-- `TabbedContainer` (src/components.rs). -/
structure TabbedContainer where
  tabs : List String
  active_tab : ℕ
deriving DecidableEq

/-- `ScrollPane` (src/components.rs). -/
structure ScrollPane where
  scroll_position : Vec2
  max_scroll : Vec2
deriving DecidableEq

/-- `ScrollArea` (src/advanced_components/scroll_area.rs). -/
structure ScrollArea where
  scroll_position : Vec2
  max_scroll : Vec2
  enabled : Bool
  sensitivity : ℚ
deriving DecidableEq

/-- `FocusState` (src/components.rs). -/
inductive FocusState where
  | NotFocused
  | Focused
  | Active
deriving DecidableEq

/-- `FocusableType` (src/components.rs). -/
inductive FocusableType where
  | Button
  | Slider
  | Checkbox
  | Dropdown
deriving DecidableEq

/-- `Focusable` (src/components.rs). -/
structure Focusable where
  state : FocusState
  focus_type : FocusableType
deriving DecidableEq

/-- `f32::clamp(self, min, max)`: Rust returns `min` below the range and
`max` above it. -/
def rustClamp (v lo hi : ℚ) : ℚ := if v < lo then lo else if v > hi then hi else v

/-- `Iterator::position`: index of the first element satisfying the
predicate. -/
def listPosition (p : α → Bool) : List α → Option ℕ
  | [] => none
  | a :: l => if p a then some 0 else (listPosition p l).map (· + 1)

/-- `button_interaction_system` (src/systems.rs lines 11-49), per widget.
Sets the `pressed`/`hovered` flags from the interaction, recolours the
background, and recolours the text sections of the child entities that
have a `Text` component. -/
def buttonInteractionSystem (interaction : Interaction) (button : UiButton)
    (_bg_color : Color) (children : Option (List Entity))
    (textOf : Entity → Option Text) :
    UiButton × Color × (Entity → Option Text) :=
  let button' := { button with
    hovered := interaction = Interaction.Hovered,
    pressed := interaction = Interaction.Pressed }
  let bg' : Color :=
    match interaction with
    | Interaction.Pressed => colors.button.PRESSED
    | Interaction.Hovered => colors.button.HOVERED
    | _ => colors.button.NORMAL
  let sectionColor : Color :=
    match interaction with
    | Interaction.Pressed => colors.focus.TEXT
    | Interaction.Hovered => colors.text.NORMAL
    | _ => colors.text.NORMAL
  let textOf' : Entity → Option Text :=
    match children with
    | some cs => fun e =>
        if e ∈ cs then
          (textOf e).map (fun t =>
            ⟨t.sections.map (fun sec => { sec with color := sectionColor })⟩)
        else textOf e
    | none => textOf
  (button', bg', textOf')

/-- `checkbox_interaction_system` (src/systems.rs lines 52-67), per widget.
On a press of a non-disabled checkbox, toggles `checked` and recolours the
background from the new state; otherwise leaves everything unchanged. -/
def checkboxInteractionSystem (interaction : Interaction)
    (checkbox : UiCheckbox) (bg_color : Color) : UiCheckbox × Color :=
  if interaction = Interaction.Pressed ∧ !checkbox.disabled then
    let checkbox' := { checkbox with checked := !checkbox.checked }
    (checkbox',
     if checkbox'.checked then colors.button.PRESSED else colors.button.NORMAL)
  else (checkbox, bg_color)

/-- `slider_interaction_system` (src/systems.rs lines 70-86), per widget.
The query takes `&UiSlider` immutably, so the slider is never written; in
every interaction state the handler rewrites the width to
`Val::Px(slider.value * 100.0)`. -/
def sliderInteractionSystem (interaction : Interaction) (slider : UiSlider)
    (style : Style) : Style :=
  match interaction with
  | Interaction.Pressed => { style with width := Val.Px (slider.value * 100) }
  | Interaction.Hovered => { style with width := Val.Px (slider.value * 100) }
  | Interaction.None => { style with width := Val.Px (slider.value * 100) }

/-- The duplicate `slider_interaction_system` (src/lib.rs lines 216-233),
per widget. On press it clamps `value` into `[0, 1]` and writes the width
as `Val::Px(value * 100.0)`; on hover or none it only rewrites the
width. -/
def libSliderInteractionSystem (interaction : Interaction) (slider : UiSlider)
    (style : Style) : UiSlider × Style :=
  match interaction with
  | Interaction.Pressed =>
      let slider' := { slider with value := rustClamp slider.value 0 1 }
      (slider', { style with width := Val.Px (slider'.value * 100) })
  | Interaction.Hovered =>
      (slider, { style with width := Val.Px (slider.value * 100) })
  | Interaction.None =>
      (slider, { style with width := Val.Px (slider.value * 100) })

/-- One frame of `slider_interaction_system` (src/systems.rs) on a slider
and its style: the `UiSlider` component is borrowed immutably and is
returned unchanged. -/
def sliderFrame (p : UiSlider × Style) (interaction : Interaction) :
    UiSlider × Style :=
  (p.1, sliderInteractionSystem interaction p.1 p.2)

/-- The string written by `format!` with a `.0`-precision percent
pattern in `update_progress_bars`. The exact tie-rounding of the Rust
format macro (round half to even) is immaterial to every claim; nearest
rounding is used. -/
def percentText (v : ℚ) : String := toString (round (v * 100) : ℤ) ++ "%"

/-- The duplicate `checkbox_interaction_system` (src/lib.rs lines
201-213), per widget. On press it toggles `checked` (the `disabled` flag
is not consulted) and rewrites the first section of the first child's
`Text`; `children[0]` and `sections[0]` are unchecked slice indexes, so
an empty child list or an empty section list is a panic, modelled as
`none`. -/
def libCheckboxInteractionSystem (interaction : Interaction)
    (checkbox : UiCheckbox) (children : List Entity)
    (textOf : Entity → Option Text) :
    Option (UiCheckbox × (Entity → Option Text)) :=
  if interaction = Interaction.Pressed then
    let checkbox' := { checkbox with checked := !checkbox.checked }
    match children with
    | [] => none
    | c0 :: _ =>
      match textOf c0 with
      | some t =>
        match t.sections with
        | [] => none
        | sec :: rest =>
            some (checkbox', fun e =>
              if e = c0 then
                some ⟨{ sec with
                  value := if checkbox'.checked then "☑" else "☐" } :: rest⟩
              else textOf e)
      | none => some (checkbox', textOf)
  else some (checkbox, textOf)

/-- `update_progress_bars` (src/systems.rs lines 89-106), per widget. If
the width is a percent value it is rewritten from the clamped progress;
when `show_text` is set the first section of the first child's `Text` is
rewritten. `children[0]` and `sections[0]` are unchecked slice indexes,
so an empty child list or an empty section list is a panic, modelled as
`none`; a first child without a `Text` component is skipped via the
checked `get_mut`. -/
def updateProgressBars (progress_bar : ProgressBar) (style : Style)
    (children : List Entity) (textOf : Entity → Option Text) :
    Option (Style × (Entity → Option Text)) :=
  let style' : Style :=
    match style.width with
    | Val.Percent _ =>
        { width := Val.Percent (rustClamp (progress_bar.value * 100) 0 100) }
    | _ => style
  if progress_bar.show_text then
    match children with
    | [] => none
    | c0 :: _ =>
      match textOf c0 with
      | some t =>
        match t.sections with
        | [] => none
        | sec :: rest =>
            some (style', fun e =>
              if e = c0 then
                some ⟨{ sec with value := percentText progress_bar.value } :: rest⟩
              else textOf e)
      | none => some (style', textOf)
  else some (style', textOf)

/-- `tab_system` (src/systems.rs lines 241-263), for one pressed button
whose `Parent` is `parentEnt`, a `TabbedContainer` with the given child
list. The source computes
`children.iter().position(|&child| child == parent.get())`: it searches
the container's children for the container entity itself (not for the
pressed button). When an index is found, `active_tab` is set and every
child is first made `Visible`, then every child at a different index is
overwritten to `Hidden`. -/
def tabSystem (interaction : Interaction) (parentEnt : Entity)
    (tab_container : TabbedContainer) (children : List Entity)
    (vis : Entity → Visibility) : TabbedContainer × (Entity → Visibility) :=
  match interaction with
  | Interaction.Pressed =>
    match listPosition (fun child => child == parentEnt) children with
    | some index =>
        ({ tab_container with active_tab := index },
         children.enum.foldl
           (fun v ic => fun e =>
             if e = ic.2 then
               if ic.1 ≠ index then Visibility.Hidden else Visibility.Visible
             else v e)
           vis)
    | none => (tab_container, vis)
  | _ => (tab_container, vis)

/-- Bevy `Rect` with inclusive `contains`, as computed by
`node.logical_rect(transform)`. -/
structure Rect where
  min : Vec2
  max : Vec2
deriving DecidableEq

/-- `Rect::contains` (inclusive on all edges). -/
def Rect.contains (r : Rect) (p : Vec2) : Prop :=
  r.min.x ≤ p.x ∧ p.x ≤ r.max.x ∧ r.min.y ≤ p.y ∧ p.y ≤ r.max.y

instance (r : Rect) (p : Vec2) : Decidable (r.contains p) := by
  unfold Rect.contains
  infer_instance

/-- `MouseScrollUnit`. -/
inductive MouseScrollUnit where
  | Line
  | Pixel
deriving DecidableEq

/-- `MouseWheel` event (the handlers read only `unit` and `y`). -/
structure MouseWheel where
  unit : MouseScrollUnit
  x : ℚ
  y : ℚ
deriving DecidableEq

/-- Body of the pane loop of `scroll_pane_system` (src/systems.rs lines
266-292) for one event and one pane: when the cursor lies over the pane's
rectangle, the wheel delta (line units scaled by 20, pixel units
verbatim) is added to `scroll_position.y` and the sum is clamped by
`.max(0.0).min(max_scroll.y)`. -/
def scrollPaneUpdate (cursor : Option Vec2) (event : MouseWheel)
    (pr : ScrollPane × Rect) : ScrollPane × Rect :=
  match cursor with
  | some cursor_pos =>
    if pr.2.contains cursor_pos then
      let scroll_delta : ℚ :=
        match event.unit with
        | MouseScrollUnit.Line => event.y * 20
        | MouseScrollUnit.Pixel => event.y
      ({ pr.1 with scroll_position :=
          ⟨pr.1.scroll_position.x,
           min (max (pr.1.scroll_position.y + scroll_delta) 0) pr.1.max_scroll.y⟩ },
       pr.2)
    else pr
  | none => pr

/-- `scroll_pane_system` (src/systems.rs lines 266-292): the outer loop
over the wheel events, each iterating over all panes. -/
def scrollPaneSystem (events : List MouseWheel) (cursor : Option Vec2)
    (panes : List (ScrollPane × Rect)) : List (ScrollPane × Rect) :=
  events.foldl (fun ps event => ps.map (scrollPaneUpdate cursor event)) panes

/-- Body of the area loop of `scroll_area_system`
(src/advanced_components/scroll_area.rs lines 40-70) for one event and
one area: disabled areas are skipped; otherwise, when the cursor lies
over the area's rectangle, the scaled delta is added to both components
of `scroll_position` (glam `Vec2 + f32`) and the result is clamped by
`.max(Vec2::ZERO).min(max_scroll)` componentwise. -/
def scrollAreaUpdate (cursor : Option Vec2) (event : MouseWheel)
    (ar : ScrollArea × Rect) : ScrollArea × Rect :=
  if !ar.1.enabled then ar
  else
    match cursor with
    | some cursor_pos =>
      if ar.2.contains cursor_pos then
        let scroll_delta : ℚ :=
          match event.unit with
          | MouseScrollUnit.Line => event.y * 20
          | MouseScrollUnit.Pixel => event.y
        let moved := ar.1.scroll_position.addScalar (scroll_delta * ar.1.sensitivity)
        ({ ar.1 with scroll_position := (moved.cmax Vec2.ZERO).cmin ar.1.max_scroll },
         ar.2)
      else ar
    | none => ar

/-- `scroll_area_system` (src/advanced_components/scroll_area.rs lines
40-70): the outer loop over the wheel events, each iterating over all
scroll areas. -/
def scrollAreaSystem (events : List MouseWheel) (cursor : Option Vec2)
    (areas : List (ScrollArea × Rect)) : List (ScrollArea × Rect) :=
  events.foldl (fun ars event => ars.map (scrollAreaUpdate cursor event)) areas

/-- `calculate_scroll_bounds_system`
(src/advanced_components/scroll_area.rs lines 73-91) for one scroll area:
children whose `Node` lookup fails are skipped, the remaining heights are
summed, and `max_scroll` becomes `(0, (total_height - node.size().y).max(0))`. -/
def calculateScrollBoundsSystem (scroll_area : ScrollArea) (nodeSize : Vec2)
    (childNodes : List (Option Vec2)) : ScrollArea :=
  let total_height : ℚ :=
    childNodes.foldl
      (fun acc c => match c with | some s => acc + s.y | none => acc) 0
  { scroll_area with
    max_scroll := ⟨0, max (total_height - nodeSize.y) 0⟩ }

/-- Invariant of claim C2 for a `ScrollPane`. -/
def ScrollPane.inRange (p : ScrollPane) : Prop :=
  0 ≤ p.scroll_position.x ∧ p.scroll_position.x ≤ p.max_scroll.x ∧
  0 ≤ p.scroll_position.y ∧ p.scroll_position.y ≤ p.max_scroll.y

instance (p : ScrollPane) : Decidable p.inRange := by
  unfold ScrollPane.inRange
  infer_instance

/-- Invariant of claim C2 for a `ScrollArea`. -/
def ScrollArea.inRange (a : ScrollArea) : Prop :=
  0 ≤ a.scroll_position.x ∧ a.scroll_position.x ≤ a.max_scroll.x ∧
  0 ≤ a.scroll_position.y ∧ a.scroll_position.y ≤ a.max_scroll.y

instance (a : ScrollArea) : Decidable a.inRange := by
  unfold ScrollArea.inRange
  infer_instance

/-- One row of the `focus_navigation_system` query
(src/systems.rs line 139): entity, `Focusable`, background colour, border
colour and the translation of the `GlobalTransform`. -/
structure FocusWidget where
  id : Entity
  focusable : Focusable
  bg : Color
  border : Color
  pos : Vec2
deriving DecidableEq

/-- The state `focus_navigation_system` works on: the query rows plus the
frame-persistent `Local<Option<Entity>>` current-focus slot. -/
structure FocusWorld where
  widgets : List FocusWidget
  current : Option Entity
deriving DecidableEq

/-- The comparator of the sort in `focus_navigation_system`:
`a.y.total_cmp(&b.y).then(a.x.total_cmp(&b.x))` is not `Greater`. -/
def posLe (p q : Vec2) : Prop := p.y < q.y ∨ (p.y = q.y ∧ p.x ≤ q.x)

instance : DecidableRel posLe := fun p q => by
  unfold posLe
  infer_instance

/-- The comparator lifted to query rows (it reads only the translation). -/
def focusLe (a b : FocusWidget) : Prop := posLe a.pos b.pos

instance : DecidableRel focusLe := fun a b => by
  unfold focusLe
  infer_instance

/-- The stable sort of the focusables by `(y, then x)` ascending
(src/systems.rs lines 144-151). Rust's `sort_by` is a stable sort; any
stable sort with the same comparator computes the same list. -/
def sortFocusables (l : List FocusWidget) : List FocusWidget :=
  List.insertionSort focusLe l

/-- The advance step of `focus_navigation_system` (src/systems.rs lines
153-160) on the entity ids of the sorted focusables: if the current focus
is found, advance its index cyclically; if the current focus is set but
absent from the list it is kept; if unset, focus the first sorted widget
when one exists. -/
def navUpdate (ids : List Entity) (cur : Option Entity) : Option Entity :=
  match cur with
  | some current =>
    match listPosition (fun e => e == current) ids with
    | some pos => some (ids.getD ((pos + 1) % ids.length) 0)
    | none => some current
  | none => if ids.isEmpty then none else some (ids.getD 0 0)

/-- The per-widget focus-state update of `focus_navigation_system`
(src/systems.rs lines 163-178): `state` is derived from whether the
widget is the current focus, and a focused widget gets the highlight and
border colours. -/
def focusVisual (cur : Option Entity) (fw : FocusWidget) : FocusWidget :=
  let is_focused := cur = some fw.id
  { fw with
    focusable := { fw.focusable with
      state := if is_focused then FocusState.Focused else FocusState.NotFocused },
    bg := if is_focused then colors.focus.HIGHLIGHT else fw.bg,
    border := if is_focused then colors.focus.BORDER else fw.border }

/-- One frame of `focus_navigation_system` (src/systems.rs lines
137-179): when the advance key (`Tab`) was just pressed, the focusables
are sorted by `(y, then x)` and the current focus advances; afterwards
every widget's focus state and focus visuals are re-derived. -/
def focusNavigationSystem (tabPressed : Bool) (w : FocusWorld) : FocusWorld :=
  let cur :=
    if tabPressed then
      navUpdate ((sortFocusables w.widgets).map FocusWidget.id) w.current
    else w.current
  { widgets := w.widgets.map (focusVisual cur), current := cur }

/-- One row of the `checkbox_interaction_system` query together with its
`Changed<Interaction>` flag. The flag is true when the interaction was
written since the system last ran; the handler itself never writes
`Interaction`, so a run clears the flag for the next run. -/
structure CheckboxRow where
  changed : Bool
  interaction : Interaction
  checkbox : UiCheckbox
  bg : Color
deriving DecidableEq

/-- One frame of `checkbox_interaction_system` (src/systems.rs lines
52-67) over its `Changed<Interaction>`-filtered query: rows with a fresh
interaction change are processed, the rest are untouched; all change
flags are consumed. -/
def checkboxRowStep (r : CheckboxRow) : CheckboxRow :=
  if r.changed then
    let p := checkboxInteractionSystem r.interaction r.checkbox r.bg
    { changed := false, interaction := r.interaction,
      checkbox := p.1, bg := p.2 }
  else { r with changed := false }

/-- One frame of `checkbox_interaction_system` over the whole filtered
query. -/
def checkboxFrame (rows : List CheckboxRow) : List CheckboxRow :=
  rows.map checkboxRowStep

/-- The data of a focusable row that the advance step of
`focus_navigation_system` reads: the entity id (compared against the
current focus) and the translation (fed to the sort comparator). -/
def fwKey (fw : FocusWidget) : Entity × Vec2 := (fw.id, fw.pos)

/-- A concrete two-widget focus world, used to instantiate the focus
cycling theorem. -/
def focusDemoWorld : FocusWorld :=
  ⟨[⟨1, ⟨FocusState.NotFocused, FocusableType.Button⟩, colors.BLACK,
      colors.WHITE, ⟨0, 0⟩⟩,
    ⟨2, ⟨FocusState.NotFocused, FocusableType.Button⟩, colors.BLACK,
      colors.WHITE, ⟨0, 1⟩⟩],
   some 1⟩

lemma foldl_sliderFrame_fst (il : List Interaction) (p : UiSlider × Style) :
    (il.foldl sliderFrame p).1 = p.1 := by
  induction il generalizing p with
  | nil => rfl
  | cons i il ih =>
    rw [List.foldl_cons, ih]
    rfl

/-- C1 (amended): on every interaction change the scheduled slider
handler rewrites the visual width to `value * 100` pixels and never
touches `value`; the duplicate in src/lib.rs additionally clamps `value`
into `[0, 1]` on press before writing the same pixel width. Neither
handler reads a pointer position, maps it to `[min, max]`, quantizes to
`step`, or writes a percentage width. -/
theorem slider_handler_px_width (i : Interaction) (s : UiSlider) (st : Style) :
    (sliderInteractionSystem i s st).width = Val.Px (s.value * 100) ∧
    (libSliderInteractionSystem i s st).1.value =
      (if i = Interaction.Pressed then rustClamp s.value 0 1 else s.value) ∧
    (libSliderInteractionSystem i s st).2.width =
      Val.Px ((libSliderInteractionSystem i s st).1.value * 100) := by
  cases i <;> simp [sliderInteractionSystem, libSliderInteractionSystem]

/-- C1 (counterexample): a slider with `min = 0`, `max = 100`,
`step = some 10`, `value = 0`, pressed (the pointer standing at 34% of
the track width is invisible to the handlers, which take no pointer
input): the claim predicts `value = 30` and a `30%` fill width, but both
handlers leave `value` at `0` and write a pixel width, not a percent
width. -/
theorem slider_press_ignores_pointer_example :
    ¬ ((libSliderInteractionSystem Interaction.Pressed
          ⟨0, 0, 100, "", some 10, false⟩ ⟨Val.Percent 0⟩).1.value = 30 ∧
       (libSliderInteractionSystem Interaction.Pressed
          ⟨0, 0, 100, "", some 10, false⟩ ⟨Val.Percent 0⟩).2.width =
         Val.Percent 30) ∧
    (sliderInteractionSystem Interaction.Pressed
       ⟨0, 0, 100, "", some 10, false⟩ ⟨Val.Percent 0⟩).width ≠
      Val.Percent 30 ∧
    (libSliderInteractionSystem Interaction.Pressed
       ⟨0, 0, 100, "", some 10, false⟩ ⟨Val.Percent 0⟩).1.value = 0 := by
  decide

/-- C3 (amended): the scheduled slider handler (src/systems.rs) borrows
the `UiSlider` immutably, so after any sequence of interaction events the
slider is unchanged and `min ≤ value ≤ max` is preserved whenever it held
initially; no step quantization is performed anywhere. -/
theorem slider_value_preserved_in_range (il : List Interaction)
    (s : UiSlider) (st : Style) (h1 : s.min ≤ s.value) (h2 : s.value ≤ s.max) :
    (il.foldl sliderFrame (s, st)).1 = s ∧
    s.min ≤ (il.foldl sliderFrame (s, st)).1.value ∧
    (il.foldl sliderFrame (s, st)).1.value ≤ s.max := by
  rw [foldl_sliderFrame_fst]
  exact ⟨rfl, h1, h2⟩

/-- Witness for C3's amended theorem at a concrete slider and event
sequence. -/
theorem slider_value_preserved_in_range_witness :
    ((⟨1, 0, 2, "", none, false⟩ : UiSlider).min ≤
        (⟨1, 0, 2, "", none, false⟩ : UiSlider).value) ∧
    ((⟨1, 0, 2, "", none, false⟩ : UiSlider).value ≤
        (⟨1, 0, 2, "", none, false⟩ : UiSlider).max) ∧
    (([Interaction.Pressed, Interaction.Hovered].foldl sliderFrame
        (⟨1, 0, 2, "", none, false⟩, ⟨Val.Auto⟩)).1 =
      (⟨1, 0, 2, "", none, false⟩ : UiSlider) ∧
     (⟨1, 0, 2, "", none, false⟩ : UiSlider).min ≤
       ([Interaction.Pressed, Interaction.Hovered].foldl sliderFrame
         (⟨1, 0, 2, "", none, false⟩, ⟨Val.Auto⟩)).1.value ∧
     ([Interaction.Pressed, Interaction.Hovered].foldl sliderFrame
         (⟨1, 0, 2, "", none, false⟩, ⟨Val.Auto⟩)).1.value ≤
       (⟨1, 0, 2, "", none, false⟩ : UiSlider).max) :=
  ⟨by decide, by decide,
   slider_value_preserved_in_range
     [Interaction.Pressed, Interaction.Hovered]
     ⟨1, 0, 2, "", none, false⟩ ⟨Val.Auto⟩ (by decide) (by decide)⟩

/-- C3 (counterexample): a slider with `min = 5`, `max = 10`, `value = 7`
(inside its range) processed by the src/lib.rs handler on a single press:
`value` is clamped into `[0, 1]`, ending at `1`, which is below `min`. -/
theorem slider_lib_clamp_leaves_range :
    (⟨7, 5, 10, "", none, false⟩ : UiSlider).min ≤
      (⟨7, 5, 10, "", none, false⟩ : UiSlider).value ∧
    (⟨7, 5, 10, "", none, false⟩ : UiSlider).value ≤
      (⟨7, 5, 10, "", none, false⟩ : UiSlider).max ∧
    (libSliderInteractionSystem Interaction.Pressed
       ⟨7, 5, 10, "", none, false⟩ ⟨Val.Px 0⟩).1.value = 1 ∧
    ¬ ((⟨7, 5, 10, "", none, false⟩ : UiSlider).min ≤
        (libSliderInteractionSystem Interaction.Pressed
          ⟨7, 5, 10, "", none, false⟩ ⟨Val.Px 0⟩).1.value) := by
  decide

/-- C6: a press on a non-disabled checkbox toggles `checked`, the
background colour is recoloured from the new state, and a second press
restores the original `checked` value. -/
theorem checkbox_press_toggles (c : UiCheckbox) (bg : Color)
    (h : c.disabled = false) :
    (checkboxInteractionSystem Interaction.Pressed c bg).1.checked =
      !c.checked ∧
    (checkboxInteractionSystem Interaction.Pressed c bg).2 =
      (if !c.checked then colors.button.PRESSED else colors.button.NORMAL) ∧
    (checkboxInteractionSystem Interaction.Pressed
       (checkboxInteractionSystem Interaction.Pressed c bg).1
       (checkboxInteractionSystem Interaction.Pressed c bg).2).1.checked =
      c.checked := by
  simp [checkboxInteractionSystem, h]

/-- Witness for C6 at a concrete unchecked, enabled checkbox. -/
theorem checkbox_press_toggles_witness :
    (⟨false, false, none⟩ : UiCheckbox).disabled = false ∧
    ((checkboxInteractionSystem Interaction.Pressed ⟨false, false, none⟩
        colors.button.NORMAL).1.checked = !false ∧
     (checkboxInteractionSystem Interaction.Pressed ⟨false, false, none⟩
        colors.button.NORMAL).2 =
       (if !false then colors.button.PRESSED else colors.button.NORMAL) ∧
     (checkboxInteractionSystem Interaction.Pressed
        (checkboxInteractionSystem Interaction.Pressed ⟨false, false, none⟩
           colors.button.NORMAL).1
        (checkboxInteractionSystem Interaction.Pressed ⟨false, false, none⟩
           colors.button.NORMAL).2).1.checked = false) :=
  ⟨rfl, checkbox_press_toggles ⟨false, false, none⟩ colors.button.NORMAL rfl⟩

/-- C10: after the button handler runs, `pressed` holds exactly when the
interaction is `Pressed` and `hovered` exactly when it is `Hovered`, so
the two flags are never both set and the three visual states are
mutually exclusive. -/
theorem button_visual_states_exclusive (i : Interaction) (b : UiButton)
    (bg : Color) (children : Option (List Entity))
    (textOf : Entity → Option Text) :
    ((buttonInteractionSystem i b bg children textOf).1.pressed = true ↔
      i = Interaction.Pressed) ∧
    ((buttonInteractionSystem i b bg children textOf).1.hovered = true ↔
      i = Interaction.Hovered) ∧
    ¬ ((buttonInteractionSystem i b bg children textOf).1.pressed = true ∧
       (buttonInteractionSystem i b bg children textOf).1.hovered = true) := by
  cases i <;> simp [buttonInteractionSystem]

lemma foldl_totalHeight (sizes : List Vec2) (acc : ℚ) :
    ((sizes.map some).foldl
      (fun acc c => match c with | some s => acc + s.y | none => acc) acc)
    = acc + (sizes.map Vec2.y).sum := by
  induction sizes generalizing acc with
  | nil => simp
  | cons v l ih => simp [ih, add_assoc]

/-- C8: on a child list whose `Node` lookups all succeed, the bounds pass
sets `max_scroll` to `(0, max 0 (sum of child heights - container
height))`, and on any child list the resulting `max_scroll.y` is never
negative. -/
theorem scroll_bounds_formula (sa : ScrollArea) (nodeSize : Vec2)
    (sizes : List Vec2) (childNodes : List (Option Vec2)) :
    (calculateScrollBoundsSystem sa nodeSize (sizes.map some)).max_scroll =
      ⟨0, max 0 ((sizes.map Vec2.y).sum - nodeSize.y)⟩ ∧
    0 ≤ (calculateScrollBoundsSystem sa nodeSize childNodes).max_scroll.y := by
  constructor
  · show (⟨0, max (_ - nodeSize.y) 0⟩ : Vec2) = _
    rw [foldl_totalHeight, zero_add, max_comm]
  · exact le_max_right _ _

lemma listPosition_eq_none_of_not_mem {k : Entity} {l : List Entity}
    (h : k ∉ l) : listPosition (fun c => c == k) l = none := by
  induction l with
  | nil => rfl
  | cons a l ih =>
    simp only [List.mem_cons, not_or] at h
    obtain ⟨h1, h2⟩ := h
    have h1' : ¬ (a = k) := fun hh => h1 hh.symm
    simp [listPosition, beq_iff_eq, h1', ih h2]

/-- C4: the handler computes
`children.iter().position(|&child| child == parent.get())`, searching the
container's children for the container entity itself; in any well-formed
hierarchy (the container is not among its own children) the index is
never found, so a press on a tab button changes neither `active_tab` nor
any visibility. -/
theorem tab_press_is_noop (i : Interaction) (parentEnt : Entity)
    (tc : TabbedContainer) (children : List Entity)
    (vis : Entity → Visibility) (h : parentEnt ∉ children) :
    tabSystem i parentEnt tc children vis = (tc, vis) := by
  cases i with
  | Pressed => simp [tabSystem, listPosition_eq_none_of_not_mem h]
  | Hovered => rfl
  | None => rfl

/-- Witness for C4's no-op theorem: container entity `0` with pressed tab
children `[1, 2, 3]`; nothing changes. -/
theorem tab_press_is_noop_witness :
    (0 : Entity) ∉ ([1, 2, 3] : List Entity) ∧
    tabSystem Interaction.Pressed 0 ⟨[], 0⟩ [1, 2, 3]
        (fun _ => Visibility.Visible) =
      (⟨[], 0⟩, fun _ => Visibility.Visible) :=
  ⟨by decide, tab_press_is_noop _ _ _ _ _ (by decide)⟩

/-- C5 (counterexample): `update_progress_bars` on a progress bar with
`show_text = true` and no child entity evaluates `children[0]`, an
out-of-bounds slice index, i.e. a panic (modelled as `none`) instead of
skipping the text update. -/
theorem progress_bar_missing_child_is_fatal :
    updateProgressBars ⟨1/2, colors.BLACK, colors.WHITE, true⟩
      ⟨Val.Percent 0⟩ [] (fun _ => none) = none := rfl

/-- C5 (amended): the progress-bar handler and the src/lib.rs checkbox
handler are partial: each fails (panics) exactly when its text update is
reached (`show_text` set, respectively a press) and either the child list
is empty or the first child carries a `Text` with no sections; on all
other inputs, including a first child without a `Text` component, they
succeed and skip the affected update. -/
theorem handler_totality_characterization (pb : ProgressBar) (st : Style)
    (children : List Entity) (textOf : Entity → Option Text)
    (i : Interaction) (c : UiCheckbox) :
    (updateProgressBars pb st children textOf = none ↔
      pb.show_text = true ∧
        (children = [] ∨ ∃ c0 cs t, children = c0 :: cs ∧
          textOf c0 = some t ∧ t.sections = [])) ∧
    (libCheckboxInteractionSystem i c children textOf = none ↔
      i = Interaction.Pressed ∧
        (children = [] ∨ ∃ c0 cs t, children = c0 :: cs ∧
          textOf c0 = some t ∧ t.sections = [])) := by
  constructor
  · cases hb : pb.show_text
    · simp [updateProgressBars, hb]
    · cases children with
      | nil => simp [updateProgressBars, hb]
      | cons c0 cs =>
        cases ht : textOf c0 with
        | none => simp [updateProgressBars, hb, ht]
        | some t =>
          cases hs : t.sections with
          | nil => simp [updateProgressBars, hb, ht, hs]
          | cons sec rest => simp [updateProgressBars, hb, ht, hs]
  · by_cases hi : i = Interaction.Pressed
    · cases children with
      | nil => simp [libCheckboxInteractionSystem, hi]
      | cons c0 cs =>
        cases ht : textOf c0 with
        | none => simp [libCheckboxInteractionSystem, hi, ht]
        | some t =>
          cases hs : t.sections with
          | nil => simp [libCheckboxInteractionSystem, hi, ht, hs]
          | cons sec rest => simp [libCheckboxInteractionSystem, hi, ht, hs]
    · simp [libCheckboxInteractionSystem, hi]

lemma scrollPaneSystem_cons (e : MouseWheel) (es : List MouseWheel)
    (cursor : Option Vec2) (panes : List (ScrollPane × Rect)) :
    scrollPaneSystem (e :: es) cursor panes =
      scrollPaneSystem es cursor (panes.map (scrollPaneUpdate cursor e)) := rfl

lemma scrollAreaSystem_cons (e : MouseWheel) (es : List MouseWheel)
    (cursor : Option Vec2) (areas : List (ScrollArea × Rect)) :
    scrollAreaSystem (e :: es) cursor areas =
      scrollAreaSystem es cursor (areas.map (scrollAreaUpdate cursor e)) := rfl

lemma scrollPaneUpdate_inRange (cursor : Option Vec2) (event : MouseWheel)
    (pr : ScrollPane × Rect) (h : pr.1.inRange) :
    (scrollPaneUpdate cursor event pr).1.inRange := by
  obtain ⟨hx0, hxm, hy0, hym⟩ := h
  unfold scrollPaneUpdate
  cases cursor with
  | none => exact ⟨hx0, hxm, hy0, hym⟩
  | some cpos =>
    dsimp only
    by_cases hc : pr.2.contains cpos
    · rw [if_pos hc]
      exact ⟨hx0, hxm,
        le_min (le_max_right _ _) (hy0.trans hym),
        min_le_right _ _⟩
    · rw [if_neg hc]
      exact ⟨hx0, hxm, hy0, hym⟩

lemma scrollAreaUpdate_inRange (cursor : Option Vec2) (event : MouseWheel)
    (ar : ScrollArea × Rect) (h : ar.1.inRange) :
    (scrollAreaUpdate cursor event ar).1.inRange := by
  obtain ⟨hx0, hxm, hy0, hym⟩ := h
  unfold scrollAreaUpdate
  by_cases he : ar.1.enabled
  · rw [if_neg (by simp [he])]
    cases cursor with
    | none => exact ⟨hx0, hxm, hy0, hym⟩
    | some cpos =>
      dsimp only
      by_cases hc : ar.2.contains cpos
      · rw [if_pos hc]
        exact ⟨le_min (le_max_right _ _) (hx0.trans hxm),
          min_le_right _ _,
          le_min (le_max_right _ _) (hy0.trans hym),
          min_le_right _ _⟩
      · rw [if_neg hc]
        exact ⟨hx0, hxm, hy0, hym⟩
  · rw [if_pos (by simp [he])]
    exact ⟨hx0, hxm, hy0, hym⟩

lemma scrollPaneSystem_inRange (events : List MouseWheel)
    (cursor : Option Vec2) (panes : List (ScrollPane × Rect))
    (h : ∀ p ∈ panes, p.1.inRange) :
    ∀ p ∈ scrollPaneSystem events cursor panes, p.1.inRange := by
  induction events generalizing panes with
  | nil => exact h
  | cons e es ih =>
    rw [scrollPaneSystem_cons]
    apply ih
    intro p hp
    rw [List.mem_map] at hp
    obtain ⟨q, hq, rfl⟩ := hp
    exact scrollPaneUpdate_inRange _ _ _ (h q hq)

lemma scrollAreaSystem_inRange (events : List MouseWheel)
    (cursor : Option Vec2) (areas : List (ScrollArea × Rect))
    (h : ∀ a ∈ areas, a.1.inRange) :
    ∀ a ∈ scrollAreaSystem events cursor areas, a.1.inRange := by
  induction events generalizing areas with
  | nil => exact h
  | cons e es ih =>
    rw [scrollAreaSystem_cons]
    apply ih
    intro a ha
    rw [List.mem_map] at ha
    obtain ⟨q, hq, rfl⟩ := ha
    exact scrollAreaUpdate_inRange _ _ _ (h q hq)

/-- C2: for both scroll handlers, after processing any finite sequence of
mouse-wheel events (any ordering and magnitudes), every widget whose
`scroll_position` started within `[0, max_scroll]` (componentwise) is
still within `[0, max_scroll]`. -/
theorem scroll_positions_stay_in_range (events : List MouseWheel)
    (cursor : Option Vec2) (panes : List (ScrollPane × Rect))
    (areas : List (ScrollArea × Rect))
    (hp : ∀ p ∈ panes, p.1.inRange) (ha : ∀ a ∈ areas, a.1.inRange) :
    (∀ p ∈ scrollPaneSystem events cursor panes, p.1.inRange) ∧
    (∀ a ∈ scrollAreaSystem events cursor areas, a.1.inRange) :=
  ⟨scrollPaneSystem_inRange events cursor panes hp,
   scrollAreaSystem_inRange events cursor areas ha⟩

/-- Witness for C2: one pane and one area under the cursor, a large line
scroll followed by a large negative pixel scroll; positions stay inside
the range. -/
theorem scroll_positions_stay_in_range_witness :
    (∀ p ∈ [((⟨⟨0, 5⟩, ⟨10, 40⟩⟩ : ScrollPane),
             (⟨⟨0, 0⟩, ⟨100, 100⟩⟩ : Rect))], p.1.inRange) ∧
    (∀ a ∈ [((⟨⟨0, 5⟩, ⟨10, 40⟩, true, 20⟩ : ScrollArea),
             (⟨⟨0, 0⟩, ⟨100, 100⟩⟩ : Rect))], a.1.inRange) ∧
    ((∀ p ∈ scrollPaneSystem
        [⟨MouseScrollUnit.Line, 0, 100⟩, ⟨MouseScrollUnit.Pixel, 0, -999⟩]
        (some ⟨50, 50⟩)
        [((⟨⟨0, 5⟩, ⟨10, 40⟩⟩ : ScrollPane),
          (⟨⟨0, 0⟩, ⟨100, 100⟩⟩ : Rect))], p.1.inRange) ∧
     (∀ a ∈ scrollAreaSystem
        [⟨MouseScrollUnit.Line, 0, 100⟩, ⟨MouseScrollUnit.Pixel, 0, -999⟩]
        (some ⟨50, 50⟩)
        [((⟨⟨0, 5⟩, ⟨10, 40⟩, true, 20⟩ : ScrollArea),
          (⟨⟨0, 0⟩, ⟨100, 100⟩⟩ : Rect))], a.1.inRange)) :=
  ⟨by decide, by decide,
   scroll_positions_stay_in_range
     [⟨MouseScrollUnit.Line, 0, 100⟩, ⟨MouseScrollUnit.Pixel, 0, -999⟩]
     (some ⟨50, 50⟩)
     [((⟨⟨0, 5⟩, ⟨10, 40⟩⟩ : ScrollPane), (⟨⟨0, 0⟩, ⟨100, 100⟩⟩ : Rect))]
     [((⟨⟨0, 5⟩, ⟨10, 40⟩, true, 20⟩ : ScrollArea),
       (⟨⟨0, 0⟩, ⟨100, 100⟩⟩ : Rect))]
     (by decide) (by decide)⟩

lemma checkboxRowStep_idem (r : CheckboxRow) :
    checkboxRowStep (checkboxRowStep r) = checkboxRowStep r := by
  by_cases h : r.changed <;> simp [checkboxRowStep, h]

lemma focusVisual_idem (cur : Option Entity) (fw : FocusWidget) :
    focusVisual cur (focusVisual cur fw) = focusVisual cur fw := by
  by_cases h : cur = some fw.id <;> simp [focusVisual, h]

/-- C9: running a handler a second time with no new input event leaves
the state exactly as it was after the first run: the checkbox frame with
its change flags consumed is idempotent, the scroll handler with an empty
event queue is the identity, and the focus handler without a fresh key
press recomputes the same derived state. -/
theorem handlers_idempotent_without_input (rows : List CheckboxRow)
    (events : List MouseWheel) (cursor : Option Vec2)
    (panes : List (ScrollPane × Rect)) (t : Bool) (w : FocusWorld) :
    checkboxFrame (checkboxFrame rows) = checkboxFrame rows ∧
    scrollPaneSystem [] cursor (scrollPaneSystem events cursor panes) =
      scrollPaneSystem events cursor panes ∧
    focusNavigationSystem false (focusNavigationSystem t w) =
      focusNavigationSystem t w := by
  refine ⟨?_, rfl, ?_⟩
  · simp [checkboxFrame, List.map_map, Function.comp, checkboxRowStep_idem]
  · simp [focusNavigationSystem, List.map_map, Function.comp, focusVisual_idem]

lemma getD_mem (l : List Entity) (i : ℕ) (d : Entity) (h : i < l.length) :
    l.getD i d ∈ l := by
  induction l generalizing i with
  | nil => simp at h
  | cons a l ih =>
    cases i with
    | zero => simp [List.getD_cons_zero]
    | succ i =>
      rw [List.getD_cons_succ]
      exact List.mem_cons_of_mem _ (ih i (by simpa using h))

lemma listPosition_getD (l : List Entity) (i : ℕ) (hi : i < l.length)
    (hnd : l.Nodup) :
    listPosition (fun e => e == l.getD i 0) l = some i := by
  induction l generalizing i with
  | nil => simp at hi
  | cons a l ih =>
    cases i with
    | zero => simp [listPosition, List.getD_cons_zero]
    | succ i =>
      have hi' : i < l.length := by simpa using hi
      have hmem : l.getD i 0 ∈ l := getD_mem l i 0 hi'
      have hne : ¬ (a == l.getD i 0) = true := by
        rw [beq_iff_eq]
        intro hcontra
        rw [List.nodup_cons] at hnd
        exact hnd.1 (hcontra ▸ hmem)
      simp only [List.getD_cons_succ, listPosition, hne, if_false,
        Bool.false_eq_true]
      rw [ih i hi' (List.Nodup.of_cons hnd)]
      rfl

lemma navUpdate_getD (ids : List Entity) (hnd : ids.Nodup) (i : ℕ)
    (hi : i < ids.length) :
    navUpdate ids (some (ids.getD i 0)) =
      some (ids.getD ((i + 1) % ids.length) 0) := by
  unfold navUpdate
  dsimp only
  rw [listPosition_getD ids i hi hnd]

lemma navUpdate_iterate (ids : List Entity) (hnd : ids.Nodup) (i : ℕ)
    (hi : i < ids.length) :
    ∀ k, (navUpdate ids)^[k] (some (ids.getD i 0)) =
      some (ids.getD ((i + k) % ids.length) 0) := by
  intro k
  induction k with
  | zero => simp [Nat.mod_eq_of_lt hi]
  | succ k ihk =>
    rw [Function.iterate_succ_apply', ihk]
    have hpos : 0 < ids.length := by omega
    have hlt : (i + k) % ids.length < ids.length := Nat.mod_lt _ hpos
    rw [navUpdate_getD ids hnd _ hlt]
    have heq : ((i + k) % ids.length + 1) % ids.length =
        (i + (k + 1)) % ids.length := by
      rw [Nat.mod_add_mod]
      congr 1
    rw [heq]

lemma orderedInsert_map_fwKey : ∀ (s t : List FocusWidget)
    (a b : FocusWidget), fwKey a = fwKey b → s.map fwKey = t.map fwKey →
    (List.orderedInsert focusLe a s).map fwKey =
      (List.orderedInsert focusLe b t).map fwKey := by
  intro s
  induction s with
  | nil =>
    intro t a b hab hst
    have ht : t = [] := by simpa using hst.symm
    subst ht
    simpa using hab
  | cons c s ih =>
    intro t a b hab hst
    cases t with
    | nil => simp at hst
    | cons d t =>
      simp only [List.map_cons, List.cons.injEq] at hst
      obtain ⟨hcd, hst'⟩ := hst
      have hab2 : a.pos = b.pos := by
        have h2 := congrArg Prod.snd hab
        simpa [fwKey] using h2
      have hcd2 : c.pos = d.pos := by
        have h2 := congrArg Prod.snd hcd
        simpa [fwKey] using h2
      have hiff : focusLe a c ↔ focusLe b d := by
        unfold focusLe
        rw [hab2, hcd2]
      by_cases h : focusLe a c
      · rw [List.orderedInsert, List.orderedInsert, if_pos h,
          if_pos (hiff.mp h)]
        simp only [List.map_cons]
        rw [hab, hcd, hst']
      · rw [List.orderedInsert, List.orderedInsert, if_neg h,
          if_neg (fun hh => h (hiff.mpr hh))]
        simp only [List.map_cons]
        rw [hcd, ih t a b hab hst']

lemma insertionSort_map_fwKey : ∀ (s t : List FocusWidget),
    s.map fwKey = t.map fwKey →
    (List.insertionSort focusLe s).map fwKey =
      (List.insertionSort focusLe t).map fwKey := by
  intro s
  induction s with
  | nil =>
    intro t h
    have ht : t = [] := by simpa using h.symm
    subst ht
    rfl
  | cons c s ih =>
    intro t h
    cases t with
    | nil => simp at h
    | cons d t =>
      simp only [List.map_cons, List.cons.injEq] at h
      obtain ⟨hcd, hst⟩ := h
      rw [List.insertionSort, List.insertionSort]
      exact orderedInsert_map_fwKey _ _ _ _ hcd (ih t hst)

lemma map_id_eq_map_fst_fwKey (l : List FocusWidget) :
    l.map FocusWidget.id = (l.map fwKey).map Prod.fst := by
  rw [List.map_map]
  rfl

lemma sortFocusables_ids_of_keys {s t : List FocusWidget}
    (h : s.map fwKey = t.map fwKey) :
    (sortFocusables s).map FocusWidget.id =
      (sortFocusables t).map FocusWidget.id := by
  rw [map_id_eq_map_fst_fwKey, map_id_eq_map_fst_fwKey]
  unfold sortFocusables
  rw [insertionSort_map_fwKey s t h]

lemma map_fwKey_focusVisual (cur : Option Entity) (l : List FocusWidget) :
    (l.map (focusVisual cur)).map fwKey = l.map fwKey := by
  rw [List.map_map]
  rfl

lemma focus_iterate_invariant (w : FocusWorld) (k : ℕ) :
    ((focusNavigationSystem true)^[k] w).widgets.map fwKey =
      w.widgets.map fwKey ∧
    ((focusNavigationSystem true)^[k] w).current =
      (navUpdate ((sortFocusables w.widgets).map FocusWidget.id))^[k]
        w.current := by
  induction k with
  | zero => exact ⟨rfl, rfl⟩
  | succ k ih =>
    obtain ⟨ihw, ihc⟩ := ih
    rw [Function.iterate_succ_apply', Function.iterate_succ_apply']
    constructor
    · show ((((focusNavigationSystem true)^[k] w).widgets.map
          (focusVisual _)).map fwKey) = _
      rw [map_fwKey_focusVisual, ihw]
    · show navUpdate
          ((sortFocusables ((focusNavigationSystem true)^[k] w).widgets).map
            FocusWidget.id)
          ((focusNavigationSystem true)^[k] w).current = _
      rw [sortFocusables_ids_of_keys ihw, ihc]

lemma exists_getD_of_mem (l : List Entity) (e : Entity) (h : e ∈ l) :
    ∃ i, i < l.length ∧ l.getD i 0 = e := by
  induction l with
  | nil => simp at h
  | cons a l ih =>
    rcases List.mem_cons.mp h with h1 | h2
    · exact ⟨0, by simp, by simp [List.getD_cons_zero, h1.symm]⟩
    · obtain ⟨i, hi, hg⟩ := ih h2
      exact ⟨i + 1, by simpa using hi,
        by simpa [List.getD_cons_succ] using hg⟩

/-- C7: for a fixed non-empty set of focusable widgets with fixed
positions and distinct entities, pressing the advance key once per
widget — each press sorting the widgets by `(y, then x)` and advancing
the current-focus index cyclically — returns the focus to the widget it
started on. -/
theorem focus_advance_cycles (w : FocusWorld) (e : Entity)
    (hnd : (w.widgets.map FocusWidget.id).Nodup)
    (hcur : w.current = some e)
    (hmem : e ∈ w.widgets.map FocusWidget.id) :
    ((focusNavigationSystem true)^[w.widgets.length] w).current = some e := by
  have hperm : List.Perm ((sortFocusables w.widgets).map FocusWidget.id)
      (w.widgets.map FocusWidget.id) :=
    (List.perm_insertionSort focusLe w.widgets).map FocusWidget.id
  set ids0 := (sortFocusables w.widgets).map FocusWidget.id with hids0
  have hnd0 : ids0.Nodup := hperm.nodup_iff.mpr hnd
  have hmem0 : e ∈ ids0 := hperm.mem_iff.mpr hmem
  obtain ⟨i, hi, hg⟩ := exists_getD_of_mem ids0 e hmem0
  have hlen : ids0.length = w.widgets.length := by
    rw [hids0]
    unfold sortFocusables
    rw [List.length_map, List.length_insertionSort]
  have hiter := (focus_iterate_invariant w (w.widgets.length)).2
  rw [hiter, hcur, ← hg,
    navUpdate_iterate ids0 hnd0 i hi (w.widgets.length)]
  have hidx : (i + w.widgets.length) % ids0.length = i := by
    rw [← hlen, Nat.add_mod_right, Nat.mod_eq_of_lt hi]
  rw [hidx]

/-- Witness for C7: two stacked focusable widgets with entities `1`
and `2`; two advance presses return the focus to entity `1`. -/
theorem focus_advance_cycles_witness :
    (focusDemoWorld.widgets.map FocusWidget.id).Nodup ∧
    focusDemoWorld.current = some 1 ∧
    (1 : Entity) ∈ focusDemoWorld.widgets.map FocusWidget.id ∧
    ((focusNavigationSystem true)^[focusDemoWorld.widgets.length]
        focusDemoWorld).current = some 1 :=
  ⟨by decide, rfl, by decide,
   focus_advance_cycles focusDemoWorld 1 (by decide) rfl (by decide)⟩

end SfUi
